import Mathlib

/-!
Shallow embedding of `tests/noise_test/clouds_bw.py`: thresholded fractal
Perlin noise producing a binary cloud mask.  The numpy floating-point
arithmetic is modelled exactly over `ℚ`, keeping every literal of the source
(including the `1e-12` division guards).  The seeded PRNG together with the
`cos`/`sin` gradient construction (`rng = np.random.default_rng(seed)`,
`angles = rng.uniform(0, 2*pi, (grid_h, grid_w))`,
`grads = dstack(cos(angles), sin(angles))`) is abstracted as a `GradSource`
oracle mapping (seed, grid_h, grid_w, row, column) to a gradient vector: the
PCG64 stream and the trigonometric functions are external collaborators, and
none of the claims depends on the particular gradient values.
-/

/-- Perlin fade curve `6 t^5 - 15 t^4 + 10 t^3` (source `fade`). -/
def fade (t : ℚ) : ℚ := t * t * t * (t * (t * 6 - 15) + 10)

/-- Linear interpolation `a + t (b - a)` (source `lerp`). -/
def lerp (a b t : ℚ) : ℚ := a + t * (b - a)

/-- Binary minimum on `ℚ` (`np.minimum` elementwise). -/
def qmin (a b : ℚ) : ℚ := if a ≤ b then a else b

/-- Binary maximum on `ℚ` (`np.maximum` elementwise). -/
def qmax (a b : ℚ) : ℚ := if a ≤ b then b else a

/-- Binary minimum on `ℤ`. -/
def imin (a b : ℤ) : ℤ := if a ≤ b then a else b

/-- Binary maximum on `ℤ`. -/
def imax (a b : ℤ) : ℤ := if a ≤ b then b else a

/-- `np.clip(x, 0.0, 1.0)`. -/
def clip01 (x : ℚ) : ℚ := qmin 1 (qmax 0 x)

/-- The literal `1e-12` the source uses as a division guard. -/
def epsGuard : ℚ := 1 / 10 ^ 12

/-- Python `round` on an exact value: banker's rounding (round half to
even), as used in `int(round(width / scale))`. -/
def pyRound (q : ℚ) : ℤ :=
  if q - ⌊q⌋ < 1 / 2 then ⌊q⌋
  else if 1 / 2 < q - ⌊q⌋ then ⌊q⌋ + 1
  else if ⌊q⌋ % 2 = 0 then ⌊q⌋ else ⌊q⌋ + 1

/-- Element `i` of `np.linspace(0, stop, num, endpoint=False)`,
whose step is `stop / num`. -/
def linspace0 (stop : ℚ) (num : ℕ) (i : ℕ) : ℚ := (i : ℚ) * (stop / num)

/-- All values of a `w × h` field, row by row (column index first). -/
def gridVals {α : Type} (w h : ℕ) (f : ℕ → ℕ → α) : List α :=
  ((List.range h).map (fun j => (List.range w).map (fun i => f i j))).flatten

/-- Reduce a list with a binary operation; `d` is returned for the empty
list (on which numpy's `.min()` / `.max()` raise instead of returning). -/
def listRed {α : Type} (op : α → α → α) (d : α) : List α → α
  | [] => d
  | x :: xs => xs.foldl op x

/-- `array.min()` over a `w × h` grid of rationals. -/
def gridMinQ (w h : ℕ) (f : ℕ → ℕ → ℚ) : ℚ := listRed qmin 0 (gridVals w h f)

/-- `array.max()` over a `w × h` grid of rationals. -/
def gridMaxQ (w h : ℕ) (f : ℕ → ℕ → ℚ) : ℚ := listRed qmax 0 (gridVals w h f)

/-- `array.min()` over a `w × h` grid of integers. -/
def gridMinZ (w h : ℕ) (f : ℕ → ℕ → ℤ) : ℤ := listRed imin 0 (gridVals w h f)

/-- `array.max()` over a `w × h` grid of integers. -/
def gridMaxZ (w h : ℕ) (f : ℕ → ℕ → ℤ) : ℤ := listRed imax 0 (gridVals w h f)

/-- Pixel index set of a `width × height` field (column `i`, row `j`). -/
def pixels (w h : ℕ) : Finset (ℕ × ℕ) := Finset.range w ×ˢ Finset.range h

/-- Gradient oracle abstracting the seeded RNG and the `cos`/`sin` step:
arguments are seed, `grid_h`, `grid_w`, row index `gj`, column index `gi`. -/
abbrev GradSource := ℤ → ℕ → ℕ → ℕ → ℕ → ℚ × ℚ

/-- Tileable-mode per-axis cell count:
`max(1, int(round(dimension / scale)))`. -/
def gridCells (dim : ℕ) (scale : ℚ) : ℕ := (imax 1 (pyRound ((dim : ℚ) / scale))).toNat

/-- Tileable-mode gradient lookup `grads[iy % grid_h, ix % grid_w]`:
indices wrap modulo the per-axis cell count. -/
def gradAtTile (g : GradSource) (seed : ℤ) (w h : ℕ) (scale : ℚ) (ix iy : ℤ) : ℚ × ℚ :=
  g seed (gridCells h scale) (gridCells w scale)
    ((iy % (gridCells h scale : ℤ)).toNat) ((ix % (gridCells w scale : ℤ)).toNat)

/-- Non-tileable mode: `x0 = floor(x)` where
`x = linspace(0, width / scale, width, endpoint=False)[i]`. -/
def x0Box (w : ℕ) (scale : ℚ) (i : ℕ) : ℤ := ⌊linspace0 ((w : ℚ) / scale) w i⌋

/-- Non-tileable mode: `y0 = floor(y)` where
`y = linspace(0, height / scale, height, endpoint=False)[j]`. -/
def y0Box (h : ℕ) (scale : ℚ) (j : ℕ) : ℤ := ⌊linspace0 ((h : ℚ) / scale) h j⌋

/-- `gx_min = x0.min()` over the sample grid. -/
def gxMin (w h : ℕ) (scale : ℚ) : ℤ := gridMinZ w h (fun i _ => x0Box w scale i)

/-- `gx_max = x1.max()` over the sample grid, where `x1 = x0 + 1`. -/
def gxMax (w h : ℕ) (scale : ℚ) : ℤ := gridMaxZ w h (fun i _ => x0Box w scale i + 1)

/-- `gy_min = y0.min()` over the sample grid. -/
def gyMin (w h : ℕ) (scale : ℚ) : ℤ := gridMinZ w h (fun _ j => y0Box h scale j)

/-- `gy_max = y1.max()` over the sample grid, where `y1 = y0 + 1`. -/
def gyMax (w h : ℕ) (scale : ℚ) : ℤ := gridMaxZ w h (fun _ j => y0Box h scale j + 1)

/-- Non-tileable gradient-array width `grid_w = gx_max - gx_min + 1`. -/
def gridWBox (w h : ℕ) (scale : ℚ) : ℤ := gxMax w h scale - gxMin w h scale + 1

/-- Non-tileable gradient-array height `grid_h = gy_max - gy_min + 1`. -/
def gridHBox (w h : ℕ) (scale : ℚ) : ℤ := gyMax w h scale - gyMin w h scale + 1

/-- Non-tileable gradient lookup `grads[iy - gy_min, ix - gx_min]`:
absolute lattice coordinates translated by the stored minima. -/
def gradAtBox (g : GradSource) (seed : ℤ) (w h : ℕ) (scale : ℚ) (ix iy : ℤ) : ℚ × ℚ :=
  g seed (gridHBox w h scale).toNat (gridWBox w h scale).toNat
    ((iy - gyMin w h scale).toNat) ((ix - gxMin w h scale).toNat)

/-- Corner gradients, corner dot products and fade interpolation of one
sample point (source lines 100-123), for a given gradient lookup. -/
def noiseAt (gradLookup : ℤ → ℤ → ℚ × ℚ) (x y : ℚ) : ℚ :=
  let x0 : ℤ := ⌊x⌋
  let y0 : ℤ := ⌊y⌋
  let sx : ℚ := x - x0
  let sy : ℚ := y - y0
  let g00 := gradLookup x0 y0
  let g10 := gradLookup (x0 + 1) y0
  let g01 := gradLookup x0 (y0 + 1)
  let g11 := gradLookup (x0 + 1) (y0 + 1)
  let n00 := g00.1 * sx + g00.2 * sy
  let n10 := g10.1 * (sx - 1) + g10.2 * sy
  let n01 := g01.1 * sx + g01.2 * (sy - 1)
  let n11 := g11.1 * (sx - 1) + g11.2 * (sy - 1)
  lerp (lerp n00 n10 (fade sx)) (lerp n01 n11 (fade sx)) (fade sy)

/-- The interpolated noise value `nxy` of pixel `(i, j)` before
normalization; the coordinate grids of the two modes are as in the source. -/
def perlinRaw (g : GradSource) (w h : ℕ) (scale : ℚ) (seed : ℤ) (tileable : Bool)
    (i j : ℕ) : ℚ :=
  if tileable then
    noiseAt (gradAtTile g seed w h scale)
      (linspace0 (gridCells w scale : ℚ) w i) (linspace0 (gridCells h scale : ℚ) h j)
  else
    noiseAt (gradAtBox g seed w h scale)
      (linspace0 ((w : ℚ) / scale) w i) (linspace0 ((h : ℚ) / scale) h j)

/-- Min-max normalization `(nxy - nxy.min()) / (nxy.max() - nxy.min() + 1e-12)`. -/
def perlinField (g : GradSource) (w h : ℕ) (scale : ℚ) (seed : ℤ) (tileable : Bool)
    (i j : ℕ) : ℚ :=
  (perlinRaw g w h scale seed tileable i j - gridMinQ w h (perlinRaw g w h scale seed tileable))
    / (gridMaxQ w h (perlinRaw g w h scale seed tileable)
        - gridMinQ w h (perlinRaw g w h scale seed tileable) + epsGuard)

/-- `perlin2d(width, height, scale, seed, tileable)`.  `scale <= 0` raises
`ValueError("scale must be > 0")` up front; a zero-area field makes the
`.min()` reduction of the normalization step raise (numpy refuses to reduce
an empty array), modelled as the second error branch since no field is ever
returned in that case. -/
def perlin2d (g : GradSource) (w h : ℕ) (scale : ℚ) (seed : ℤ) (tileable : Bool) :
    Except String (ℕ → ℕ → ℚ) :=
  if scale ≤ 0 then Except.error "scale must be > 0"
  else if w = 0 ∨ h = 0 then Except.error "zero-size array to reduction operation"
  else Except.ok (perlinField g w h scale seed tileable)

/-- The octave loop of `fbm`: state is (remaining octaves, octave index,
total, amp, amp_sum, scale); each iteration adds `perlin2d(...) * amp`,
then updates `amp *= gain` and `scale /= lacunarity`. -/
def fbmLoop (g : GradSource) (w h : ℕ) (seed : ℤ) (tileable : Bool) (lacunarity gain : ℚ) :
    ℕ → ℕ → (ℕ → ℕ → ℚ) → ℚ → ℚ → ℚ → Except String ((ℕ → ℕ → ℚ) × ℚ)
  | 0, _, total, _, ampSum, _ => Except.ok (total, ampSum)
  | rem + 1, i, total, amp, ampSum, scale =>
    match perlin2d g w h scale (seed + 1013 * (i : ℤ)) tileable with
    | Except.error e => Except.error e
    | Except.ok n =>
      fbmLoop g w h seed tileable lacunarity gain rem (i + 1)
        (fun px py => total px py + n px py * amp) (amp * gain) (ampSum + amp)
        (scale / lacunarity)

/-- `fbm(width, height, base_scale, octaves, lacunarity, gain, seed, tileable)`:
runs the octave loop from `total = zeros`, `amp = 1`, `amp_sum = 0`,
`scale = base_scale`, then `total /= (amp_sum + 1e-12)` and
`total = clip(total, 0, 1)`. -/
def fbm (g : GradSource) (w h : ℕ) (baseScale : ℚ) (octaves : ℕ) (lacunarity gain : ℚ)
    (seed : ℤ) (tileable : Bool) : Except String (ℕ → ℕ → ℚ) :=
  match fbmLoop g w h seed tileable lacunarity gain octaves 0 (fun _ _ => 0) 1 0 baseScale with
  | Except.error e => Except.error e
  | Except.ok p => Except.ok (fun i j => clip01 (p.1 i j / (p.2 + epsGuard)))

/-- Round a positive rational to the nearest IEEE-754 binary32 value (round
half to even), for magnitudes in binary32's normal range: with
`e = Int.log 2 q` the scaled significand `q * 2 ^ (23 - e) ∈ [2^23, 2^24)`
is rounded to the nearest integer (ties to even) and scaled back.  This is
the conversion numpy applies to a float64 scalar operand before combining it
elementwise with a float32 array. -/
def f32round (q : ℚ) : ℚ :=
  if q ≤ 0 then 0
  else (pyRound (q * 2 ^ (23 - Int.log 2 q)) : ℚ) * 2 ^ (Int.log 2 q - 23)

/-- `fbm` with the renormalizing division performed as numpy performs it on
the float32 array `total`: the float64 scalar `amp_sum + 1e-12` is converted
to the array dtype float32 (`f32round`) before the elementwise division.
`fbm` above idealizes that scalar as exact; this dtype-faithful variant of
the same source line is what makes the single-octave identity exact in the
source.  (For `octaves = 1` no other operation distinguishes the two
readings: `total = 0 + n * 1.0` and `amp_sum = 0.0 + 1.0` are exact in
float32 and in `ℚ` alike.) -/
def fbmF32 (g : GradSource) (w h : ℕ) (baseScale : ℚ) (octaves : ℕ) (lacunarity gain : ℚ)
    (seed : ℤ) (tileable : Bool) : Except String (ℕ → ℕ → ℚ) :=
  match fbmLoop g w h seed tileable lacunarity gain octaves 0 (fun _ _ => 0) 1 0 baseScale with
  | Except.error e => Except.error e
  | Except.ok p => Except.ok (fun i j => clip01 (p.1 i j / f32round (p.2 + epsGuard)))

/-- Threshold stage `bw = (n > threshold).astype(np.uint8) * 255`. -/
def thresholdStage (n : ℕ → ℕ → ℚ) (t : ℚ) (i j : ℕ) : ℕ :=
  if n i j > t then 255 else 0

/-- Number of pixels the threshold stage sets to 255. -/
def onCount (w h : ℕ) (n : ℕ → ℕ → ℚ) (t : ℚ) : ℕ :=
  ((pixels w h).filter (fun p => thresholdStage n t p.1 p.2 = 255)).card

/-- `left = np.clip(x / padding, 0, 1)` (and `top` on the y axis). -/
def padLeft (p : ℕ) (x : ℕ) : ℚ := clip01 ((x : ℚ) / (p : ℚ))

/-- `right = np.clip((w - 1 - x) / padding, 0, 1)` (and `bottom`). -/
def padRight (w : ℕ) (p : ℕ) (x : ℕ) : ℚ := clip01 (((w : ℚ) - 1 - (x : ℚ)) / (p : ℚ))

/-- `mask_x = fade(np.minimum(left, right))`. -/
def maskX (w : ℕ) (p : ℕ) (x : ℕ) : ℚ := fade (qmin (padLeft p x) (padRight w p x))

/-- `mask_y = fade(np.minimum(top, bottom))`. -/
def maskY (h : ℕ) (p : ℕ) (y : ℕ) : ℚ := fade (qmin (padLeft p y) (padRight h p y))

/-- `mask = np.outer(mask_y, mask_x)`: the 2-D falloff mask. -/
def padMask (w h : ℕ) (p : ℕ) (x y : ℕ) : ℚ := maskY h p y * maskX w p x

/-- `n = n * mask`: the padding stage multiplies the field by the mask. -/
def padStage (w h : ℕ) (p : ℕ) (n : ℕ → ℕ → ℚ) (x y : ℕ) : ℚ :=
  n x y * padMask w h p x y

/-- Extract the field of a successful result (0 field for an error). -/
def okPix (r : Except String (ℕ → ℕ → ℚ)) (i j : ℕ) : ℚ :=
  (r.toOption.getD (fun _ _ => 0)) i j

/-- A concrete gradient oracle assigning the unit vector (1, 0) everywhere,
used to evaluate the pipeline on concrete inputs. -/
def gOne : GradSource := fun _ _ _ _ _ => (1, 0)

theorem qmin_fun_eq : qmin = (Min.min : ℚ → ℚ → ℚ) := by
  funext a b
  rw [qmin, min_def]

theorem qmax_fun_eq : qmax = (Max.max : ℚ → ℚ → ℚ) := by
  funext a b
  rw [qmax, max_def]

theorem imin_fun_eq : imin = (Min.min : ℤ → ℤ → ℤ) := by
  funext a b
  rw [imin, min_def]

theorem imax_fun_eq : imax = (Max.max : ℤ → ℤ → ℤ) := by
  funext a b
  rw [imax, max_def]

theorem foldl_min_le_init {α : Type} [LinearOrder α] (xs : List α) (b : α) :
    xs.foldl Min.min b ≤ b := by
  induction xs generalizing b with
  | nil => exact le_refl b
  | cons y ys ih => exact le_trans (ih (Min.min b y)) (min_le_left b y)

theorem foldl_min_le_mem {α : Type} [LinearOrder α] {a : α} (xs : List α) (b : α)
    (ha : a ∈ xs) : xs.foldl Min.min b ≤ a := by
  induction xs generalizing b with
  | nil => cases ha
  | cons y ys ih =>
    rcases List.mem_cons.mp ha with h | h
    · subst h
      exact le_trans (foldl_min_le_init ys (Min.min b a)) (min_le_right b a)
    · exact ih (Min.min b y) h

theorem init_le_foldl_max {α : Type} [LinearOrder α] (xs : List α) (b : α) :
    b ≤ xs.foldl Max.max b := by
  induction xs generalizing b with
  | nil => exact le_refl b
  | cons y ys ih => exact le_trans (le_max_left b y) (ih (Max.max b y))

theorem mem_le_foldl_max {α : Type} [LinearOrder α] {a : α} (xs : List α) (b : α)
    (ha : a ∈ xs) : a ≤ xs.foldl Max.max b := by
  induction xs generalizing b with
  | nil => cases ha
  | cons y ys ih =>
    rcases List.mem_cons.mp ha with h | h
    · subst h
      exact le_trans (le_max_right b a) (init_le_foldl_max ys (Max.max b a))
    · exact ih (Max.max b y) h

theorem listRed_min_le {α : Type} [LinearOrder α] {a : α} (d : α) (l : List α)
    (ha : a ∈ l) : listRed Min.min d l ≤ a := by
  cases l with
  | nil => cases ha
  | cons x xs =>
    rcases List.mem_cons.mp ha with h | h
    · subst h
      exact foldl_min_le_init xs a
    · exact foldl_min_le_mem xs x h

theorem mem_le_listRed_max {α : Type} [LinearOrder α] {a : α} (d : α) (l : List α)
    (ha : a ∈ l) : a ≤ listRed Max.max d l := by
  cases l with
  | nil => cases ha
  | cons x xs =>
    rcases List.mem_cons.mp ha with h | h
    · subst h
      exact init_le_foldl_max xs a
    · exact mem_le_foldl_max xs x h

theorem mem_gridVals {α : Type} {w h i j : ℕ} (f : ℕ → ℕ → α) (hi : i < w) (hj : j < h) :
    f i j ∈ gridVals w h f := by
  rw [gridVals]
  apply List.mem_flatten.mpr
  refine ⟨(List.range w).map (fun i => f i j), ?_, ?_⟩
  · exact List.mem_map.mpr ⟨j, List.mem_range.mpr hj, rfl⟩
  · exact List.mem_map.mpr ⟨i, List.mem_range.mpr hi, rfl⟩

theorem gridMinQ_le {w h i j : ℕ} (f : ℕ → ℕ → ℚ) (hi : i < w) (hj : j < h) :
    gridMinQ w h f ≤ f i j := by
  rw [gridMinQ, qmin_fun_eq]
  exact listRed_min_le 0 _ (mem_gridVals f hi hj)

theorem le_gridMaxQ {w h i j : ℕ} (f : ℕ → ℕ → ℚ) (hi : i < w) (hj : j < h) :
    f i j ≤ gridMaxQ w h f := by
  rw [gridMaxQ, qmax_fun_eq]
  exact mem_le_listRed_max 0 _ (mem_gridVals f hi hj)

theorem gridMinZ_le {w h i j : ℕ} (f : ℕ → ℕ → ℤ) (hi : i < w) (hj : j < h) :
    gridMinZ w h f ≤ f i j := by
  rw [gridMinZ, imin_fun_eq]
  exact listRed_min_le 0 _ (mem_gridVals f hi hj)

theorem le_gridMaxZ {w h i j : ℕ} (f : ℕ → ℕ → ℤ) (hi : i < w) (hj : j < h) :
    f i j ≤ gridMaxZ w h f := by
  rw [gridMaxZ, imax_fun_eq]
  exact mem_le_listRed_max 0 _ (mem_gridVals f hi hj)

theorem epsGuard_pos : 0 < epsGuard := by norm_num [epsGuard]

theorem clip01_nonneg (x : ℚ) : 0 ≤ clip01 x := by
  rw [clip01, qmin_fun_eq, qmax_fun_eq]
  exact le_min zero_le_one (le_max_left 0 x)

theorem clip01_le_one (x : ℚ) : clip01 x ≤ 1 := by
  rw [clip01, qmin_fun_eq]
  exact min_le_left 1 _

theorem clip01_of_mem {x : ℚ} (h0 : 0 ≤ x) (h1 : x ≤ 1) : clip01 x = x := by
  rw [clip01, qmin_fun_eq, qmax_fun_eq, max_eq_right h0, min_eq_right h1]

theorem clip01_of_one_le {x : ℚ} (h1 : 1 ≤ x) : clip01 x = 1 := by
  rw [clip01, qmin_fun_eq, qmax_fun_eq, max_eq_right (le_trans zero_le_one h1),
    min_eq_left h1]

theorem clip01_zero : clip01 0 = 0 := clip01_of_mem (le_refl 0) zero_le_one

theorem fade_zero : fade 0 = 0 := by norm_num [fade]

theorem fade_one : fade 1 = 1 := by norm_num [fade]

theorem perlin2d_ok (g : GradSource) (w h : ℕ) (scale : ℚ) (seed : ℤ) (t : Bool)
    (hs : 0 < scale) (hw : 1 ≤ w) (hh : 1 ≤ h) :
    perlin2d g w h scale seed t = Except.ok (perlinField g w h scale seed t) := by
  rw [perlin2d, if_neg (not_le.mpr hs), if_neg]
  rintro (h0 | h0) <;> omega

theorem perlinField_nonneg (g : GradSource) {w h : ℕ} (scale : ℚ) (seed : ℤ) (t : Bool)
    {i j : ℕ} (hi : i < w) (hj : j < h) : 0 ≤ perlinField g w h scale seed t i j := by
  have h1 := gridMinQ_le (perlinRaw g w h scale seed t) hi hj
  have h2 := le_gridMaxQ (perlinRaw g w h scale seed t) hi hj
  have h3 := epsGuard_pos
  rw [perlinField]
  apply div_nonneg (by linarith) (by linarith)

theorem perlinField_lt_one (g : GradSource) {w h : ℕ} (scale : ℚ) (seed : ℤ) (t : Bool)
    {i j : ℕ} (hi : i < w) (hj : j < h) : perlinField g w h scale seed t i j < 1 := by
  have h1 := gridMinQ_le (perlinRaw g w h scale seed t) hi hj
  have h2 := le_gridMaxQ (perlinRaw g w h scale seed t) hi hj
  have h3 := epsGuard_pos
  rw [perlinField]
  exact (div_lt_one (by linarith)).mpr (by linarith)

theorem perlinField_le_one (g : GradSource) {w h : ℕ} (scale : ℚ) (seed : ℤ) (t : Bool)
    {i j : ℕ} (hi : i < w) (hj : j < h) : perlinField g w h scale seed t i j ≤ 1 :=
  le_of_lt (perlinField_lt_one g scale seed t hi hj)

theorem fbmLoop_spec (g : GradSource) (w h : ℕ) (seed : ℤ) (t : Bool) (lac gn : ℚ)
    (hw : 1 ≤ w) (hh : 1 ≤ h) (hlac : 0 < lac) :
    ∀ (rem i : ℕ) (total : ℕ → ℕ → ℚ) (amp ampSum scale : ℚ), 0 < scale →
      fbmLoop g w h seed t lac gn rem i total amp ampSum scale
        = Except.ok
            (fun px py => total px py
                + ∑ k ∈ Finset.range rem,
                    perlinField g w h (scale / lac ^ k) (seed + 1013 * ((i : ℤ) + (k : ℤ))) t px py
                      * (amp * gn ^ k),
              ampSum + amp * ∑ k ∈ Finset.range rem, gn ^ k) := by
  intro rem
  induction rem with
  | zero =>
    intro i total amp ampSum scale hscale
    simp [fbmLoop]
  | succ rem ih =>
    intro i total amp ampSum scale hscale
    have hred : fbmLoop g w h seed t lac gn (rem + 1) i total amp ampSum scale
        = fbmLoop g w h seed t lac gn rem (i + 1)
            (fun px py => total px py
              + perlinField g w h scale (seed + 1013 * (i : ℤ)) t px py * amp)
            (amp * gn) (ampSum + amp) (scale / lac) := by
      simp only [fbmLoop, perlin2d_ok g w h scale (seed + 1013 * (i : ℤ)) t hscale hw hh]
    rw [hred, ih (i + 1) _ _ _ _ (div_pos hscale hlac)]
    congr 1
    refine Prod.ext ?_ ?_
    · funext px py
      have hterm : ∀ k : ℕ,
          perlinField g w h (scale / lac / lac ^ k)
              (seed + 1013 * (((i + 1 : ℕ) : ℤ) + (k : ℤ))) t px py * (amp * gn * gn ^ k)
            = perlinField g w h (scale / lac ^ (k + 1))
                (seed + 1013 * ((i : ℤ) + ((k + 1 : ℕ) : ℤ))) t px py
              * (amp * gn ^ (k + 1)) := by
        intro k
        have ha : scale / lac / lac ^ k = scale / lac ^ (k + 1) := by
          rw [div_div, ← pow_succ']
        have hb : ((i + 1 : ℕ) : ℤ) + (k : ℤ) = (i : ℤ) + ((k + 1 : ℕ) : ℤ) := by
          push_cast
          ring
        rw [ha, hb]
        ring
      simp only [Finset.sum_congr rfl (fun k _ => hterm k)]
      rw [Finset.sum_range_succ' (fun k => perlinField g w h (scale / lac ^ k)
        (seed + 1013 * ((i : ℤ) + (k : ℤ))) t px py * (amp * gn ^ k)) rem]
      simp only [pow_zero, Nat.cast_zero, add_zero, mul_one, div_one]
      ring
    · rw [Finset.sum_range_succ' (fun k => gn ^ k) rem]
      simp only [pow_zero, pow_succ']
      rw [← Finset.mul_sum]
      ring

theorem fbm_closed_form (g : GradSource) (w h oc : ℕ) (bs lac gn : ℚ) (seed : ℤ) (t : Bool)
    (hw : 1 ≤ w) (hh : 1 ≤ h) (hbs : 0 < bs) (hlac : 0 < lac) :
    fbm g w h bs oc lac gn seed t
      = Except.ok (fun i j =>
          clip01 ((∑ k ∈ Finset.range oc,
              perlinField g w h (bs / lac ^ k) (seed + 1013 * (k : ℤ)) t i j * gn ^ k)
            / ((∑ k ∈ Finset.range oc, gn ^ k) + epsGuard))) := by
  have hloop := fbmLoop_spec g w h seed t lac gn hw hh hlac oc 0 (fun _ _ => 0) 1 0 bs hbs
  simp only [fbm, hloop, Nat.cast_zero, zero_add, one_mul]

theorem fbm_one (g : GradSource) (w h : ℕ) (bs lac gn : ℚ) (seed : ℤ) (t : Bool)
    (hbs : 0 < bs) (hw : 1 ≤ w) (hh : 1 ≤ h) :
    fbm g w h bs 1 lac gn seed t
      = Except.ok (fun i j => clip01 (perlinField g w h bs seed t i j / (1 + epsGuard))) := by
  have h0 : seed + 1013 * ((0 : ℕ) : ℤ) = seed := by simp
  simp only [fbm, fbmLoop, h0, perlin2d_ok g w h bs seed t hbs hw hh]
  norm_num

theorem f32round_guard : f32round (1 + epsGuard) = 1 := by
  have hq : (0:ℚ) < 1 + epsGuard := by norm_num [epsGuard]
  have hlog : Int.log 2 ((1:ℚ) + epsGuard) = 0 := by
    rw [Int.log_of_one_le_right 2 (by norm_num [epsGuard] : (1:ℚ) ≤ 1 + epsGuard)]
    have hfl : ⌊(1:ℚ) + epsGuard⌋₊ = 1 := by
      rw [Nat.floor_eq_iff (by norm_num [epsGuard] : (0:ℚ) ≤ 1 + epsGuard)]
      norm_num [epsGuard]
    rw [hfl, Nat.log_one_right]
    exact Int.natCast_zero
  rw [f32round, if_neg (not_le.mpr hq), hlog]
  have harg : ((1:ℚ) + epsGuard) * 2 ^ ((23:ℤ) - 0)
      = 8388608 + 8388608 / 10 ^ 12 := by
    norm_num [epsGuard]
  rw [harg]
  have hround : pyRound ((8388608:ℚ) + 8388608 / 10 ^ 12) = 8388608 := by
    have hfl2 : ⌊(8388608:ℚ) + 8388608 / 10 ^ 12⌋ = 8388608 := by norm_num
    rw [pyRound, hfl2, if_pos (by norm_num)]
  rw [hround]
  norm_num

theorem fbmF32_one (g : GradSource) (w h : ℕ) (bs lac gn : ℚ) (seed : ℤ) (t : Bool)
    (hbs : 0 < bs) (hw : 1 ≤ w) (hh : 1 ≤ h) :
    fbmF32 g w h bs 1 lac gn seed t
      = Except.ok (fun i j =>
          clip01 (perlinField g w h bs seed t i j / f32round (1 + epsGuard))) := by
  have h0 : seed + 1013 * ((0 : ℕ) : ℤ) = seed := by simp
  simp only [fbmF32, fbmLoop, h0, perlin2d_ok g w h bs seed t hbs hw hh]
  norm_num

theorem fbm_pix_clip (g : GradSource) (w h oc : ℕ) (bs lac gn : ℚ) (seed : ℤ) (t : Bool)
    (f : ℕ → ℕ → ℚ) (hf : fbm g w h bs oc lac gn seed t = Except.ok f) (i j : ℕ) :
    ∃ q, f i j = clip01 q := by
  rw [fbm] at hf
  cases hloop : fbmLoop g w h seed t lac gn oc 0 (fun _ _ => 0) 1 0 bs with
  | error e =>
    rw [hloop] at hf
    cases hf
  | ok p =>
    rw [hloop] at hf
    have := (Except.ok.injEq _ _).mp hf
    exact ⟨p.1 i j / (p.2 + epsGuard), by rw [← this]⟩

theorem threshold_on_iff (n : ℕ → ℕ → ℚ) (t : ℚ) (i j : ℕ) :
    thresholdStage n t i j = 255 ↔ t < n i j := by
  by_cases hlt : t < n i j <;> simp [thresholdStage, hlt]

theorem okPix_ok (f : ℕ → ℕ → ℚ) (i j : ℕ) : okPix (Except.ok f) i j = f i j := rfl

theorem raw_demo0 : perlinRaw gOne 2 1 4 0 false 0 0 = 0 := by
  norm_num [perlinRaw, noiseAt, gradAtBox, gOne, linspace0, lerp, fade]

theorem raw_demo1 : perlinRaw gOne 2 1 4 0 false 1 0 = 75 / 512 := by
  norm_num [perlinRaw, noiseAt, gradAtBox, gOne, linspace0, lerp, fade]

theorem gridVals_demo : gridVals 2 1 (perlinRaw gOne 2 1 4 0 false)
    = [perlinRaw gOne 2 1 4 0 false 0 0, perlinRaw gOne 2 1 4 0 false 1 0] := by
  simp [gridVals, List.range_succ]

theorem min_demo : gridMinQ 2 1 (perlinRaw gOne 2 1 4 0 false) = 0 := by
  rw [gridMinQ, gridVals_demo, raw_demo0, raw_demo1]
  norm_num [listRed, qmin]

theorem max_demo : gridMaxQ 2 1 (perlinRaw gOne 2 1 4 0 false) = 75 / 512 := by
  rw [gridMaxQ, gridVals_demo, raw_demo0, raw_demo1]
  norm_num [listRed, qmax]

theorem field_demo1 : perlinField gOne 2 1 4 0 false 1 0 = 146484375000 / 146484375001 := by
  rw [perlinField, raw_demo1, min_demo, max_demo]
  norm_num [epsGuard]

theorem fbm_demo_ok : fbm gOne 2 1 4 1 2 (1/2) 0 false
    = Except.ok (fun i j => clip01 (perlinField gOne 2 1 4 0 false i j / (1 + epsGuard))) :=
  fbm_one gOne 2 1 4 2 (1/2) 0 false (by norm_num) (by norm_num) (by norm_num)

theorem fbm_demo_pix : okPix (fbm gOne 2 1 4 1 2 (1/2) 0 false) 1 0
    = perlinField gOne 2 1 4 0 false 1 0 / (1 + epsGuard) := by
  rw [fbm_demo_ok, okPix_ok]
  refine clip01_of_mem (div_nonneg ?_ ?_) ?_
  · exact perlinField_nonneg gOne 4 0 false (by norm_num) (by norm_num)
  · norm_num [epsGuard]
  · rw [div_le_one (by norm_num [epsGuard] : (0:ℚ) < 1 + epsGuard)]
    have h1 := perlinField_le_one gOne 4 0 false (w := 2) (h := 1) (i := 1) (j := 0)
      (by norm_num) (by norm_num)
    have h2 := epsGuard_pos
    linarith

/-- C1 (amended): only `scale <= 0` is validated as an upfront precondition:
`perlin2d` fails immediately with the ValueError message before any field
computation, and `fbm` (any `octaves >= 1`) propagates that error from its
first octave, producing no field.  A zero width or height is not caught by
upfront validation but still errors without producing a field (numpy's
empty-array `.min()` reduction raises during normalization).  `octaves < 1`
is not validated at all: with `octaves = 0` the loop body never runs and
`fbm` returns an all-zero field without error. -/
theorem C1_theorem (g : GradSource) (w h oc : ℕ) (scale lac gn : ℚ) (seed : ℤ) (t : Bool) :
    (scale ≤ 0 → perlin2d g w h scale seed t = Except.error "scale must be > 0")
    ∧ (scale ≤ 0 → 1 ≤ oc →
        fbm g w h scale oc lac gn seed t = Except.error "scale must be > 0")
    ∧ (0 < scale → (w = 0 ∨ h = 0) →
        perlin2d g w h scale seed t = Except.error "zero-size array to reduction operation")
    ∧ fbm g w h scale 0 lac gn seed t = Except.ok (fun _ _ => 0) := by
  refine ⟨?_, ?_, ?_, ?_⟩
  · intro hscale
    rw [perlin2d, if_pos hscale]
  · intro hscale hoc
    obtain ⟨m, rfl⟩ : ∃ m, oc = m + 1 := ⟨oc - 1, by omega⟩
    have herr : perlin2d g w h scale (seed + 1013 * ((0 : ℕ) : ℤ)) t
        = Except.error "scale must be > 0" := by
      rw [perlin2d, if_pos hscale]
    simp only [fbm, fbmLoop, herr]
  · intro hpos hwh
    rw [perlin2d, if_neg (not_le.mpr hpos), if_pos hwh]
  · simp only [fbm, fbmLoop]
    congr 1
    funext i j
    norm_num [clip01_zero]

/-- C1 witness: the theorem applied at concrete inputs exercising every
branch: a negative scale for `perlin2d` and for `fbm` with 3 octaves, a zero
width with a valid scale, and `octaves = 0`. -/
theorem C1_witness :
    perlin2d gOne 2 2 (-1) 5 false = Except.error "scale must be > 0"
    ∧ fbm gOne 2 2 (-1) 3 2 (1/2) 5 false = Except.error "scale must be > 0"
    ∧ perlin2d gOne 0 2 1 5 false = Except.error "zero-size array to reduction operation"
    ∧ fbm gOne 2 2 (-1) 0 2 (1/2) 5 false = Except.ok (fun _ _ => 0) :=
  ⟨(C1_theorem gOne 2 2 3 (-1) 2 (1/2) 5 false).1 (by norm_num),
   (C1_theorem gOne 2 2 3 (-1) 2 (1/2) 5 false).2.1 (by norm_num) (by norm_num),
   (C1_theorem gOne 0 2 3 1 2 (1/2) 5 false).2.2.1 (by norm_num) (Or.inl rfl),
   (C1_theorem gOne 2 2 3 (-1) 2 (1/2) 5 false).2.2.2⟩

/-- C1 counterexample: with `octaves = 0` (and all other parameters valid)
`fbm` does not fail — it returns an output field (all zeros), contradicting
the claim that `octaves < 1` fails immediately with no output produced. -/
theorem C1_counterexample :
    fbm gOne 1 1 1 0 2 (1/2) 0 false = Except.ok (fun _ _ => 0) := by
  simp only [fbm, fbmLoop]
  congr 1
  funext i j
  norm_num [clip01_zero]

/-- C2: with `octaves = 1` the accumulator output is identical to the direct
`perlin2d` evaluation at `scale = base_scale`, `seed = seed_base`.  `fbmF32`
performs the renormalizing division as the source's float32 arrays do: the
scalar divisor `amp_sum + 1e-12 = 1 + 1e-12` converts to float32 as exactly
1 (`f32round_guard`), division by 1 is exact, and the final clip is the
identity on the already normalized field. -/
theorem C2_theorem (g : GradSource) (w h : ℕ) (bs lac gn : ℚ) (seed : ℤ) (t : Bool)
    (hbs : 0 < bs) (hw : 1 ≤ w) (hh : 1 ≤ h) (f1 f2 : ℕ → ℕ → ℚ)
    (h1 : fbmF32 g w h bs 1 lac gn seed t = Except.ok f1)
    (h2 : perlin2d g w h bs seed t = Except.ok f2)
    (i j : ℕ) (hi : i < w) (hj : j < h) :
    f1 i j = f2 i j := by
  rw [fbmF32_one g w h bs lac gn seed t hbs hw hh] at h1
  rw [perlin2d_ok g w h bs seed t hbs hw hh] at h2
  have e1 : (fun i j =>
      clip01 (perlinField g w h bs seed t i j / f32round (1 + epsGuard))) = f1 :=
    (Except.ok.injEq _ _).mp h1
  have e2 : perlinField g w h bs seed t = f2 := (Except.ok.injEq _ _).mp h2
  rw [← e1, ← e2]
  show clip01 (perlinField g w h bs seed t i j / f32round (1 + epsGuard))
      = perlinField g w h bs seed t i j
  rw [f32round_guard, div_one]
  exact clip01_of_mem (perlinField_nonneg g bs seed t hi hj)
    (perlinField_le_one g bs seed t hi hj)

/-- C2 witness: the theorem applied at the concrete demo instance. -/
theorem C2_witness :
    okPix (fbmF32 gOne 2 1 4 1 2 (1/2) 0 false) 1 0
      = okPix (perlin2d gOne 2 1 4 0 false) 1 0 := by
  have h1 := fbmF32_one gOne 2 1 4 2 (1/2) 0 false (by norm_num) (by norm_num) (by norm_num)
  have h2 : perlin2d gOne 2 1 4 0 false = Except.ok (perlinField gOne 2 1 4 0 false) :=
    perlin2d_ok gOne 2 1 4 0 false (by norm_num) (by norm_num) (by norm_num)
  have hmain := C2_theorem gOne 2 1 4 2 (1/2) 0 false (by norm_num) (by norm_num) (by norm_num)
    _ _ h1 h2 1 0 (by norm_num) (by norm_num)
  rw [h1, h2, okPix_ok, okPix_ok]
  exact hmain

/-- C3: for valid parameters every pixel of the `perlin2d` field lies in
[0, 1], and every pixel of any field returned by `fbm` lies in [0, 1]. -/
theorem C3_theorem (g : GradSource) (w h oc : ℕ) (scale lac gn : ℚ) (seed : ℤ) (t : Bool)
    (hw : 1 ≤ w) (hh : 1 ≤ h) (hs : 0 < scale) (hoc : 1 ≤ oc) :
    perlin2d g w h scale seed t = Except.ok (perlinField g w h scale seed t)
    ∧ (∀ i j, i < w → j < h →
        0 ≤ perlinField g w h scale seed t i j ∧ perlinField g w h scale seed t i j ≤ 1)
    ∧ (∀ f, fbm g w h scale oc lac gn seed t = Except.ok f →
        ∀ i j, 0 ≤ f i j ∧ f i j ≤ 1) := by
  refine ⟨perlin2d_ok g w h scale seed t hs hw hh,
    fun i j hi hj => ⟨perlinField_nonneg g scale seed t hi hj,
      perlinField_le_one g scale seed t hi hj⟩,
    fun f hf i j => ?_⟩
  obtain ⟨q, hq⟩ := fbm_pix_clip g w h oc scale lac gn seed t f hf i j
  rw [hq]
  exact ⟨clip01_nonneg q, clip01_le_one q⟩

/-- C3 witness: the theorem applied at the concrete demo instance. -/
theorem C3_witness :
    (0 ≤ perlinField gOne 2 1 4 0 false 1 0 ∧ perlinField gOne 2 1 4 0 false 1 0 ≤ 1)
    ∧ (0 ≤ okPix (fbm gOne 2 1 4 1 2 (1/2) 0 false) 1 0
        ∧ okPix (fbm gOne 2 1 4 1 2 (1/2) 0 false) 1 0 ≤ 1) := by
  have hthm := C3_theorem gOne 2 1 1 4 2 (1/2) 0 false (by norm_num) (by norm_num)
    (by norm_num) (by norm_num)
  refine ⟨hthm.2.1 1 0 (by norm_num) (by norm_num), ?_⟩
  have hb := hthm.2.2 _ fbm_demo_ok 1 0
  rw [fbm_demo_ok, okPix_ok]
  exact hb

/-- C4 (amended): `fbm` evaluates octave `i` at `scale = base_scale /
lacunarity^i` and `seed = seed_base + 1013*i`, weights it by `gain^i`,
accumulates the weighted sum, divides by `sum(amp) + 1e-12` (the source adds
the `1e-12` guard to the divisor), and clamps to [0, 1]. -/
theorem C4_theorem (g : GradSource) (w h oc : ℕ) (bs lac gn : ℚ) (seed : ℤ) (t : Bool)
    (hw : 1 ≤ w) (hh : 1 ≤ h) (hbs : 0 < bs) (hlac : 0 < lac) (hoc : 1 ≤ oc) :
    fbm g w h bs oc lac gn seed t
      = Except.ok (fun i j =>
          clip01 ((∑ k ∈ Finset.range oc,
              perlinField g w h (bs / lac ^ k) (seed + 1013 * (k : ℤ)) t i j * gn ^ k)
            / ((∑ k ∈ Finset.range oc, gn ^ k) + epsGuard))) :=
  fbm_closed_form g w h oc bs lac gn seed t hw hh hbs hlac

/-- C4 witness: the theorem applied at the concrete demo instance. -/
theorem C4_witness :
    fbm gOne 2 1 4 1 2 (1/2) 0 false
      = Except.ok (fun i j =>
          clip01 ((∑ k ∈ Finset.range 1,
              perlinField gOne 2 1 (4 / 2 ^ k) (0 + 1013 * (k : ℤ)) false i j * (1/2) ^ k)
            / ((∑ k ∈ Finset.range 1, ((1:ℚ)/2) ^ k) + epsGuard))) :=
  C4_theorem gOne 2 1 1 4 2 (1/2) 0 false (by norm_num) (by norm_num) (by norm_num)
    (by norm_num) (by norm_num)

/-- C4 counterexample: dividing by `sum(amp)` alone (without the `1e-12`
guard), as the claim states, does not reproduce the `fbm` output at a
concrete instance. -/
theorem C4_counterexample :
    okPix (fbm gOne 2 1 4 1 2 (1/2) 0 false) 1 0
      ≠ clip01 ((∑ k ∈ Finset.range 1,
            perlinField gOne 2 1 (4 / 2 ^ k) (0 + 1013 * (k : ℤ)) false 1 0 * (1/2) ^ k)
          / (∑ k ∈ Finset.range 1, ((1:ℚ)/2) ^ k)) := by
  have hsimp : clip01 ((∑ k ∈ Finset.range 1,
        perlinField gOne 2 1 (4 / 2 ^ k) (0 + 1013 * (k : ℤ)) false 1 0 * (1/2) ^ k)
      / (∑ k ∈ Finset.range 1, ((1:ℚ)/2) ^ k))
      = perlinField gOne 2 1 4 0 false 1 0 := by
    simp only [Finset.sum_range_one, pow_zero, mul_one, Nat.cast_zero, mul_zero, add_zero,
      div_one]
    exact clip01_of_mem (perlinField_nonneg gOne 4 0 false (by norm_num) (by norm_num))
      (perlinField_le_one gOne 4 0 false (by norm_num) (by norm_num))
  rw [fbm_demo_pix, hsimp, field_demo1]
  norm_num [epsGuard]

/-- C5: in tileable mode the gradient lookup is periodic with period
`grid_w` on the x axis and `grid_h` on the y axis: shifting a lattice
coordinate by any integer multiple of the per-axis cell count returns the
same gradient vector (the seam-matching invariant). -/
theorem C5_theorem (g : GradSource) (seed : ℤ) (w h : ℕ) (scale : ℚ) (ix iy k : ℤ) :
    gradAtTile g seed w h scale (ix + k * (gridCells w scale : ℤ)) iy
        = gradAtTile g seed w h scale ix iy
    ∧ gradAtTile g seed w h scale ix (iy + k * (gridCells h scale : ℤ))
        = gradAtTile g seed w h scale ix iy := by
  constructor <;> simp [gradAtTile, Int.add_mul_emod_self]

/-- C6 (amended): in tileable mode the lattice spans exactly
`round(dimension / scale)` cells per axis whenever that rounding is at least
1; the source clamps the cell count below at 1 (`max(1, ...)`), so for
`round(dimension / scale) = 0` the lattice spans 1 cell, not 0. -/
theorem C6_theorem (w h : ℕ) (scale : ℚ)
    (hw : 1 ≤ pyRound ((w : ℚ) / scale)) (hh : 1 ≤ pyRound ((h : ℚ) / scale)) :
    (gridCells w scale : ℤ) = pyRound ((w : ℚ) / scale)
    ∧ (gridCells h scale : ℤ) = pyRound ((h : ℚ) / scale) := by
  have key : ∀ d : ℕ, 1 ≤ pyRound ((d : ℚ) / scale) →
      (gridCells d scale : ℤ) = pyRound ((d : ℚ) / scale) := by
    intro d hd
    rw [gridCells, imax, if_pos hd]
    exact Int.toNat_of_nonneg (by linarith)
  exact ⟨key w hw, key h hh⟩

/-- C6 witness: the theorem applied at width = height = 4, scale = 1. -/
theorem C6_witness :
    1 ≤ pyRound (((4:ℕ) : ℚ) / 1)
    ∧ (gridCells 4 1 : ℤ) = pyRound (((4:ℕ) : ℚ) / 1) := by
  have hle : 1 ≤ pyRound (((4:ℕ) : ℚ) / 1) := by norm_num [pyRound]
  exact ⟨hle, (C6_theorem 4 4 1 hle hle).1⟩

/-- C6 counterexample: at width 1, scale 3, `round(width/scale) = 0` but the
lattice the source builds spans `max(1, 0) = 1` cell, so the claim's
"exactly round(width/scale)" fails. -/
theorem C6_counterexample : (gridCells 1 3 : ℤ) ≠ pyRound (((1:ℕ) : ℚ) / 3) := by
  have h0 : pyRound (((1:ℕ) : ℚ) / 3) = 0 := by norm_num [pyRound]
  have h1 : gridCells 1 3 = 1 := by
    rw [gridCells, h0]
    norm_num [imax]
  rw [h1, h0]
  norm_num

/-- C7: the threshold stage maps a pixel to 255 exactly when its value
strictly exceeds the threshold and to 0 exactly when its value is at most
the threshold (so equality maps to 0), and its output is always 0 or 255. -/
theorem C7_theorem (n : ℕ → ℕ → ℚ) (t : ℚ) (i j : ℕ) :
    (thresholdStage n t i j = 255 ↔ t < n i j)
    ∧ (thresholdStage n t i j = 0 ↔ n i j ≤ t)
    ∧ (thresholdStage n t i j = 0 ∨ thresholdStage n t i j = 255) := by
  by_cases hlt : t < n i j
  · simp [thresholdStage, hlt, not_le.mpr hlt]
  · simp [thresholdStage, hlt, not_lt.mp hlt]

/-- C8: raising the threshold never increases the number of pixels the
threshold stage sets to 255. -/
theorem C8_theorem (w h : ℕ) (n : ℕ → ℕ → ℚ) (t1 t2 : ℚ) (hle : t1 ≤ t2) :
    onCount w h n t2 ≤ onCount w h n t1 := by
  apply Finset.card_le_card
  intro p hp
  rw [Finset.mem_filter] at hp ⊢
  refine ⟨hp.1, ?_⟩
  have h2 := (threshold_on_iff n t2 p.1 p.2).mp hp.2
  exact (threshold_on_iff n t1 p.1 p.2).mpr (lt_of_le_of_lt hle h2)

/-- C8 witness: the theorem applied at thresholds 0 ≤ 1 on a concrete field. -/
theorem C8_witness :
    (0 : ℚ) ≤ 1 ∧ onCount 2 2 (fun i _ => (i : ℚ)) 1 ≤ onCount 2 2 (fun i _ => (i : ℚ)) 0 :=
  ⟨by norm_num, C8_theorem 2 2 (fun i _ => (i : ℚ)) 0 1 (by norm_num)⟩

theorem padLeft_zero (p : ℕ) : padLeft p 0 = 0 := by
  rw [padLeft]
  norm_num [clip01_zero]

theorem padLeft_nonneg (p x : ℕ) : 0 ≤ padLeft p x := clip01_nonneg _

theorem padRight_nonneg (w p x : ℕ) : 0 ≤ padRight w p x := clip01_nonneg _

theorem padLeft_one (p x : ℕ) (hp : 0 < p) (hpx : p ≤ x) : padLeft p x = 1 := by
  rw [padLeft]
  apply clip01_of_one_le
  rw [le_div_iff₀ (show (0:ℚ) < (p : ℚ) from Nat.cast_pos.mpr hp), one_mul]
  exact_mod_cast hpx

theorem padRight_zero (w p x : ℕ) (hxw : x + 1 = w) : padRight w p x = 0 := by
  rw [padRight]
  have hcast : ((w : ℚ) - 1 - (x : ℚ)) = 0 := by
    subst hxw
    push_cast
    ring
  rw [hcast, zero_div, clip01_zero]

theorem padRight_one (w p x : ℕ) (hp : 0 < p) (hxp : x + p + 1 ≤ w) : padRight w p x = 1 := by
  rw [padRight]
  apply clip01_of_one_le
  rw [le_div_iff₀ (show (0:ℚ) < (p : ℚ) from Nat.cast_pos.mpr hp), one_mul]
  have hc : (x : ℚ) + (p : ℚ) + 1 ≤ (w : ℚ) := by exact_mod_cast hxp
  linarith

/-- C9: with padding `p > 0` the falloff mask is 0 on every border pixel and
1 on every pixel at distance at least `p` from all four borders; the 2-D mask
is the product of the two per-axis fade-shaped ramps, and the padding stage
multiplies the noise field by the mask elementwise. -/
theorem C9_theorem (w h p x y : ℕ) (n : ℕ → ℕ → ℚ) (hp : 0 < p) (hx : x < w) (hy : y < h) :
    padStage w h p n x y = n x y * (maskY h p y * maskX w p x)
    ∧ ((x = 0 ∨ x + 1 = w ∨ y = 0 ∨ y + 1 = h) → padMask w h p x y = 0)
    ∧ (p ≤ x → x + p + 1 ≤ w → p ≤ y → y + p + 1 ≤ h → padMask w h p x y = 1) := by
  refine ⟨rfl, ?_, ?_⟩
  · rintro (h0 | h0 | h0 | h0)
    · subst h0
      have hmx : maskX w p 0 = 0 := by
        rw [maskX, padLeft_zero, qmin_fun_eq, min_eq_left (padRight_nonneg w p 0)]
        exact fade_zero
      rw [padMask, hmx, mul_zero]
    · have hmx : maskX w p x = 0 := by
        rw [maskX, padRight_zero w p x h0, qmin_fun_eq, min_eq_right (padLeft_nonneg p x)]
        exact fade_zero
      rw [padMask, hmx, mul_zero]
    · subst h0
      have hmy : maskY h p 0 = 0 := by
        rw [maskY, padLeft_zero, qmin_fun_eq, min_eq_left (padRight_nonneg h p 0)]
        exact fade_zero
      rw [padMask, hmy, zero_mul]
    · have hmy : maskY h p y = 0 := by
        rw [maskY, padRight_zero h p y h0, qmin_fun_eq, min_eq_right (padLeft_nonneg p y)]
        exact fade_zero
      rw [padMask, hmy, zero_mul]
  · intro hx1 hx2 hy1 hy2
    have hmx : maskX w p x = 1 := by
      rw [maskX, padLeft_one p x hp hx1, padRight_one w p x hp hx2, qmin_fun_eq, min_self]
      exact fade_one
    have hmy : maskY h p y = 1 := by
      rw [maskY, padLeft_one p y hp hy1, padRight_one h p y hp hy2, qmin_fun_eq, min_self]
      exact fade_one
    rw [padMask, hmx, hmy, mul_one]

/-- C9 witness: the theorem applied on a 5 × 5 field with padding 2, at a
border pixel and at an interior pixel. -/
theorem C9_witness : padMask 5 5 2 0 3 = 0 ∧ padMask 5 5 2 2 2 = 1 :=
  ⟨(C9_theorem 5 5 2 0 3 (fun _ _ => 0) (by norm_num) (by norm_num) (by norm_num)).2.1
      (Or.inl rfl),
   (C9_theorem 5 5 2 2 2 (fun _ _ => 0) (by norm_num) (by norm_num) (by norm_num)).2.2
      (by norm_num) (by norm_num) (by norm_num) (by norm_num)⟩

/-- C10: in non-tileable mode, for every pixel both lattice corner
coordinates on each axis, translated by the stored minima, lie inside
`[0, grid_w) x [0, grid_h)`; in particular no translated index is negative. -/
theorem C10_theorem (w h : ℕ) (scale : ℚ) (hs : 0 < scale) (hw : 1 ≤ w) (hh : 1 ≤ h)
    (i j : ℕ) (hi : i < w) (hj : j < h) :
    (0 ≤ x0Box w scale i - gxMin w h scale
      ∧ x0Box w scale i - gxMin w h scale < gridWBox w h scale)
    ∧ (0 ≤ x0Box w scale i + 1 - gxMin w h scale
      ∧ x0Box w scale i + 1 - gxMin w h scale < gridWBox w h scale)
    ∧ (0 ≤ y0Box h scale j - gyMin w h scale
      ∧ y0Box h scale j - gyMin w h scale < gridHBox w h scale)
    ∧ (0 ≤ y0Box h scale j + 1 - gyMin w h scale
      ∧ y0Box h scale j + 1 - gyMin w h scale < gridHBox w h scale) := by
  have hx1 : gxMin w h scale ≤ x0Box w scale i :=
    gridMinZ_le (fun i _ => x0Box w scale i) hi hj
  have hx2 : x0Box w scale i + 1 ≤ gxMax w h scale :=
    le_gridMaxZ (fun i _ => x0Box w scale i + 1) hi hj
  have hy1 : gyMin w h scale ≤ y0Box h scale j :=
    gridMinZ_le (fun _ j => y0Box h scale j) hi hj
  have hy2 : y0Box h scale j + 1 ≤ gyMax w h scale :=
    le_gridMaxZ (fun _ j => y0Box h scale j + 1) hi hj
  have hgw : gridWBox w h scale = gxMax w h scale - gxMin w h scale + 1 := rfl
  have hgh : gridHBox w h scale = gyMax w h scale - gyMin w h scale + 1 := rfl
  exact ⟨⟨by omega, by omega⟩, ⟨by omega, by omega⟩, ⟨by omega, by omega⟩,
    ⟨by omega, by omega⟩⟩

/-- C10 witness: the theorem applied at the concrete demo instance. -/
theorem C10_witness :
    0 ≤ x0Box 2 4 1 - gxMin 2 1 4 ∧ x0Box 2 4 1 - gxMin 2 1 4 < gridWBox 2 1 4 :=
  (C10_theorem 2 1 4 (by norm_num) (by norm_num) (by norm_num) 1 0 (by norm_num)
    (by norm_num)).1
